import Mathlib

/-!
A shallow embedding of `src/neopixel_pio.c`: a 5x5 NeoPixel matrix that flashes a
fixed pattern when the microphone reading crosses a threshold.

* C `int` values are `Int`; `uint` values are `Nat`, reduced modulo `2^32` where a
  conversion happens (`toUint`); `uint8_t` and `uint16_t` values are `Nat` reduced
  modulo `2^8` and `2^16` where they are produced.
* Single-precision values are exact dyadic numbers `man * 2^exp` (`f32`); every
  operation computes the exact result and rounds it to 24 significant bits, ties
  to even.
* An access outside an array, and a float to integer conversion that does not fit,
  are undefined in C: the embedding returns `none` there.
* The peripherals are a trace of `Event`s appended to the state.
-/

namespace NeopixelPio

/-! ## Constants -/

/-- The number of LEDs, `#define LED_COUNT 25`. -/
def LED_COUNT : Nat := 25

/-- The pin of the LED chain, `#define LED_PIN 7`. -/
def LED_PIN : Nat := 7

/-- The period of the timer, `#define TIMER_MS 20`. -/
def TIMER_MS : Nat := 20

/-- The pattern `const uint matrix[5][5][3]`, written as in the source. -/
def matrix : List (List (List Nat)) :=
  [[[0, 0, 0], [0, 0, 0], [255, 0, 0], [0, 0, 0], [0, 0, 0]],
   [[0, 0, 0], [0, 0, 0], [255, 0, 0], [0, 0, 0], [0, 0, 0]],
   [[0, 0, 0], [0, 0, 0], [255, 0, 0], [0, 0, 0], [0, 0, 0]],
   [[0, 0, 0], [0, 0, 0], [0, 0, 0], [0, 0, 0], [0, 0, 0]],
   [[0, 0, 0], [0, 0, 0], [255, 0, 0], [0, 0, 0], [0, 0, 0]]]

/-- The element `matrix[i][j][k]`; `none` outside the bounds of the array. -/
def matrixAt (i j k : Nat) : Option Nat :=
  match matrix[i]? with
  | none => none
  | some plane =>
    match plane[j]? with
    | none => none
    | some cell => cell[k]?

/-! ## Machine integers -/

/-- Conversion of an `int` to `uint` (32 bits): the value modulo `2^32`. -/
def toUint (z : Int) : Nat := (z % 4294967296).toNat

/-! ## getIndex -/

/-- The function `getIndex` of the source (lines 129-141). `%` on a C `int`
truncates toward zero, which is `Int.tmod`. -/
def getIndex (x y : Int) : Int :=
  if Int.tmod y 2 = 0 then
    24 - (y * 5 + x)
  else
    24 - (y * 5 + (4 - x))

/-- The Index Mapper of the specification, section 4.1, in the words of the
specification: `(side*side - 1) - (row*side + col)` when `row` is even and
`(side*side - 1) - (row*side + (side-1-col))` when `row` is odd. -/
def specIndex (side row col : Int) : Int :=
  if row % 2 = 0 then
    (side * side - 1) - (row * side + col)
  else
    (side * side - 1) - (row * side + (side - 1 - col))

/-! ## Single precision -/

/-- A finite, non-negative single-precision value, the number `man * 2^exp`.
Every float of this program lies between 0 and `65535 * 3.3`, so signs,
subnormal numbers, infinities and NaN are left out. -/
structure f32 where
  man : Nat
  exp : Int
deriving DecidableEq, Repr

/-- The number of binary digits of `n`, found by halving `n` at most `fuel`
times; `bitLength n n` is the length of `n`. -/
def bitLength : Nat → Nat → Nat
  | 0, _ => 0
  | fuel + 1, n => if n = 0 then 0 else bitLength fuel (n / 2) + 1

/-- The fraction `n / (d * 2^s)` as a numerator and a denominator. -/
def scaleBy (n d : Nat) (s : Int) : Nat × Nat :=
  if 0 ≤ s then (n, d * 2 ^ s.toNat) else (n * 2 ^ (-s).toNat, d)

/-- Rounding of the exact number `(n / d) * 2^e` to single precision: the
quotient is scaled into `[2^23, 2^24)`, cut to an integer of 24 bits and rounded
to the nearest one, a tie going to the even one. -/
def f32.round (n d : Nat) (e : Int) : f32 :=
  if n = 0 ∨ d = 0 then ⟨0, 0⟩
  else
    let l0 : Int := (bitLength n n : Int) - (bitLength d d : Int)
    let c := scaleBy n d l0
    let l : Int := if c.2 ≤ c.1 then l0 else l0 - 1
    let s : Int := l - 23
    let p := scaleBy n d s
    let q := p.1 / p.2
    let r := p.1 % p.2
    if p.2 < 2 * r ∨ (2 * r = p.2 ∧ q % 2 = 1) then ⟨q + 1, s + e⟩ else ⟨q, s + e⟩

/-- Conversion of a non-negative integer to `float`. -/
def f32.ofNat (n : Nat) : f32 := f32.round n 1 0

/-- The decimal constant `n / d` written with the suffix `f`. -/
def f32.lit (n d : Nat) : f32 := f32.round n d 0

/-- Single-precision product. -/
def f32.mul (a b : f32) : f32 := f32.round (a.man * b.man) 1 (a.exp + b.exp)

/-- Single-precision quotient. -/
def f32.div (a b : f32) : f32 := f32.round a.man b.man (a.exp - b.exp)

/-- The integral part of a value. -/
def f32.trunc (a : f32) : Nat :=
  if 0 ≤ a.exp then a.man * 2 ^ a.exp.toNat else a.man / 2 ^ (-a.exp).toNat

/-- Conversion of a `float` to `uint8_t`: the fractional part is dropped; the
conversion is undefined when the integral part does not fit. -/
def f32.toUint8 (a : f32) : Option Nat :=
  if a.trunc < 256 then some a.trunc else none

/-- The reference voltage, `#define MIC_VREF 3.3f`. -/
def MIC_VREF : f32 := f32.lit 33 10

/-! ## State -/

/-- The two PIO blocks a `PIO` handle of the SDK can point to. -/
inductive pio_hw_t where
  | pio0
  | pio1
deriving DecidableEq, Repr

/-- The pixel in GRB order, `struct pixel_t { uint8_t G, R, B; }`. -/
structure pixel_t where
  G : Nat
  R : Nat
  B : Nat
deriving DecidableEq, Repr

/-- The other name of a pixel, `typedef pixel_t npLED_t;`. -/
abbrev npLED_t := pixel_t

/-- What the program does to the hardware, in the order it does it. -/
inductive Event where
  | ws2818b_program_init (pio : pio_hw_t) (sm offset pin freq : Nat)
  | pio_sm_put_blocking (pio : pio_hw_t) (sm data : Nat)
  | sleep_us (us : Nat)
  | sleep_ms (ms : Nat)
deriving DecidableEq, Repr

/-- The global variables of the program and the trace of its hardware calls. -/
structure State where
  value : Nat
  adjusted_value : f32
  alarm : Bool
  leds : Fin LED_COUNT → npLED_t
  np_pio : pio_hw_t
  sm : Nat
  trace : List Event

/-! ## The LED buffer -/

/-- The function `npInit` of the source (lines 66-91). `offset` is what
`pio_add_program` returned, `claim0` what `pio_claim_unused_sm(pio0, false)`
returns (a free index, or -1), `claim1` what `pio_claim_unused_sm(pio1, true)`
returns (`none` when it panics). The result is `none` when the program panics.
`sm` is a `uint`, so the claimed `int` is converted before `sm < 0` is tested. -/
def npInit (s : State) (pin offset : Nat) (claim0 : Int) (claim1 : Option Int) :
    Option State :=
  let s1 : State := { s with np_pio := pio_hw_t.pio0 }
  let s2 : State := { s1 with sm := toUint claim0 }
  let claimed : Option State :=
    if s2.sm < 0 then
      match claim1 with
      | none => none
      | some c => some { s2 with np_pio := pio_hw_t.pio1, sm := toUint c }
    else some s2
  match claimed with
  | none => none
  | some s3 =>
    let s4 : State :=
      { s3 with trace := s3.trace ++
          [Event.ws2818b_program_init s3.np_pio s3.sm offset pin 800000] }
    some ((List.finRange LED_COUNT).foldl
      (fun (t : State) i =>
        let t1 : State := { t with leds := Function.update t.leds i { t.leds i with R := 0 } }
        let t2 : State := { t1 with leds := Function.update t1.leds i { t1.leds i with G := 0 } }
        { t2 with leds := Function.update t2.leds i { t2.leds i with B := 0 } }) s4)

/-- The expression `c * 0.05f` stored in a `uint8_t`, for `c` a `uint8_t`. -/
def scaled (c : Nat) : Option Nat :=
  f32.toUint8 (f32.mul (f32.ofNat c) (f32.lit 5 100))

/-- The function `npSetLED` of the source (lines 96-101). The parameters `r`, `g`
and `b` are `uint8_t`, so the arguments are reduced modulo 256; `none` when
`index` is outside the buffer. -/
def npSetLED (s : State) (index r g b : Nat) : Option State :=
  if h : index < LED_COUNT then
    match scaled (r % 256), scaled (g % 256), scaled (b % 256) with
    | some vr, some vg, some vb =>
      let i : Fin LED_COUNT := ⟨index, h⟩
      let s1 : State := { s with leds := Function.update s.leds i { s.leds i with R := vr } }
      let s2 : State := { s1 with leds := Function.update s1.leds i { s1.leds i with G := vg } }
      some { s2 with leds := Function.update s2.leds i { s2.leds i with B := vb } }
    | _, _, _ => none
  else none

/-- The function `npClear` of the source (lines 106-110). -/
def npClear (s : State) : Option State :=
  (List.range LED_COUNT).foldlM (fun t i => npSetLED t i 0 0 0) s

/-- The function `npWrite` of the source (lines 115-125). -/
def npWrite (s : State) : State :=
  let s1 : State := (List.finRange LED_COUNT).foldl
    (fun (t : State) i =>
      { t with trace := t.trace ++
          [Event.pio_sm_put_blocking t.np_pio t.sm (t.leds i).G,
           Event.pio_sm_put_blocking t.np_pio t.sm (t.leds i).R,
           Event.pio_sm_put_blocking t.np_pio t.sm (t.leds i).B] }) s
  { s1 with trace := s1.trace ++ [Event.sleep_us 100] }

/-! ## The renderer and the sampler -/

/-- The body of the inner loop of `turn_on_led` (lines 171-172), for the loop
variables `linha` and `coluna`. -/
def paintStep (s : State) (linha coluna : Nat) : Option State :=
  let posicao : Int := getIndex linha coluna
  match matrixAt coluna linha 0, matrixAt coluna linha 1, matrixAt coluna linha 2 with
  | some r, some g, some b => npSetLED s (toUint posicao) r g b
  | _, _, _ => none

/-- The two nested loops of `turn_on_led` (lines 167-174). -/
def paint (s : State) : Option State :=
  (List.range 5).foldlM
    (fun t linha => (List.range 5).foldlM (fun u coluna => paintStep u linha coluna) t) s

/-- The function `turn_on_led` of the source (lines 164-183). -/
def turn_on_led (s : State) : Option State :=
  match paint s with
  | none => none
  | some s1 =>
    let s2 := npWrite s1
    let s3 : State := { s2 with trace := s2.trace ++ [Event.sleep_ms 5] }
    match npClear s3 with
    | none => none
    | some s4 =>
      let s5 := npWrite s4
      let s6 : State := { s5 with trace := s5.trace ++ [Event.sleep_ms 5] }
      some { s6 with alarm := false }

/-- The function `get_microphone_callback` of the source (lines 186-200); `raw`
is what `adc_read` returns, stored in the `uint16_t` variable `value`. The
second component is the value returned. -/
def get_microphone_callback (s : State) (raw : Nat) : State × Bool :=
  let s1 : State := { s with alarm := false }
  let s2 : State := { s1 with value := raw % 65536 }
  let s3 : State :=
    { s2 with adjusted_value :=
        f32.div (f32.mul (f32.ofNat s2.value) MIC_VREF) (f32.ofNat 4095) }
  let s4 : State := if s3.value > 2100 then { s3 with alarm := true } else s3
  (s4, true)

/-! ## Reference objects of the statements -/

/-- The black pixel. -/
def dark : npLED_t := { G := 0, R := 0, B := 0 }

/-- The bytes of one frame: green, red and blue of LED 0, then of LED 1, and so
on up to LED 24. -/
def frameBytes (leds : Fin LED_COUNT → npLED_t) : List Nat :=
  (List.finRange LED_COUNT).flatMap (fun i => [(leds i).G, (leds i).R, (leds i).B])

/-- The buffer with the vertical line: positions 2, 12, 17 and 22 red at level
12, the rest dark. -/
def lineLeds : Fin LED_COUNT → npLED_t :=
  fun i => if i.val = 2 ∨ i.val = 12 ∨ i.val = 17 ∨ i.val = 22 then { G := 0, R := 12, B := 0 }
    else dark

/-- A state to evaluate the operations on: every variable zero, no trace. -/
def State.zero : State :=
  { value := 0, adjusted_value := ⟨0, 0⟩, alarm := false, leds := fun _ => dark,
    np_pio := pio_hw_t.pio0, sm := 0, trace := [] }

/-! ## Facts about getIndex -/

theorem tmod_two_of_nonneg (y : Int) (hy : 0 ≤ y) : Int.tmod y 2 = y % 2 := by
  obtain ⟨n, rfl⟩ := Int.eq_ofNat_of_zero_le hy
  rfl

theorem getIndex_even (x y : Int) (hy : 0 ≤ y) (h : y % 2 = 0) :
    getIndex x y = 24 - (y * 5 + x) := by
  unfold getIndex
  rw [tmod_two_of_nonneg y hy, if_pos h]

theorem getIndex_odd (x y : Int) (hy : 0 ≤ y) (h : y % 2 = 1) :
    getIndex x y = 24 - (y * 5 + (4 - x)) := by
  unfold getIndex
  rw [tmod_two_of_nonneg y hy, if_neg (by omega)]

theorem getIndex_range (x y : Int) (hx : 0 ≤ x ∧ x ≤ 4) (hy : 0 ≤ y ∧ y ≤ 4) :
    0 ≤ getIndex x y ∧ getIndex x y ≤ 24 := by
  rcases Int.emod_two_eq_zero_or_one y with h | h
  · rw [getIndex_even x y hy.1 h]; omega
  · rw [getIndex_odd x y hy.1 h]; omega

theorem getIndex_inj (x y u v : Int) (hx : 0 ≤ x ∧ x ≤ 4) (hy : 0 ≤ y ∧ y ≤ 4)
    (hu : 0 ≤ u ∧ u ≤ 4) (hv : 0 ≤ v ∧ v ≤ 4) (h : getIndex x y = getIndex u v) :
    x = u ∧ y = v := by
  rcases Int.emod_two_eq_zero_or_one y with h1 | h1 <;>
    rcases Int.emod_two_eq_zero_or_one v with h2 | h2
  · rw [getIndex_even x y hy.1 h1, getIndex_even u v hv.1 h2] at h; omega
  · rw [getIndex_even x y hy.1 h1, getIndex_odd u v hv.1 h2] at h; omega
  · rw [getIndex_odd x y hy.1 h1, getIndex_even u v hv.1 h2] at h; omega
  · rw [getIndex_odd x y hy.1 h1, getIndex_odd u v hv.1 h2] at h; omega

theorem getIndex_surj (p : Int) (hp : 0 ≤ p ∧ p ≤ 24) :
    ∃ x y : Int, (0 ≤ x ∧ x ≤ 4) ∧ (0 ≤ y ∧ y ≤ 4) ∧ getIndex x y = p := by
  obtain ⟨h0, h24⟩ := hp
  interval_cases p
  · exact ⟨4, 4, by decide⟩
  · exact ⟨3, 4, by decide⟩
  · exact ⟨2, 4, by decide⟩
  · exact ⟨1, 4, by decide⟩
  · exact ⟨0, 4, by decide⟩
  · exact ⟨0, 3, by decide⟩
  · exact ⟨1, 3, by decide⟩
  · exact ⟨2, 3, by decide⟩
  · exact ⟨3, 3, by decide⟩
  · exact ⟨4, 3, by decide⟩
  · exact ⟨4, 2, by decide⟩
  · exact ⟨3, 2, by decide⟩
  · exact ⟨2, 2, by decide⟩
  · exact ⟨1, 2, by decide⟩
  · exact ⟨0, 2, by decide⟩
  · exact ⟨0, 1, by decide⟩
  · exact ⟨1, 1, by decide⟩
  · exact ⟨2, 1, by decide⟩
  · exact ⟨3, 1, by decide⟩
  · exact ⟨4, 1, by decide⟩
  · exact ⟨4, 0, by decide⟩
  · exact ⟨3, 0, by decide⟩
  · exact ⟨2, 0, by decide⟩
  · exact ⟨1, 0, by decide⟩
  · exact ⟨0, 0, by decide⟩

/-- C1: `getIndex`, restricted to coordinates `x, y` in `0..4`, is a bijection
onto the buffer positions `0..24`: every result lies in `[0, 24]`, two different
coordinate pairs never give the same result, and every position is reached. -/
theorem getIndex_bijOn :
    Set.BijOn (fun c : Int × Int => getIndex c.1 c.2)
      {c : Int × Int | (0 ≤ c.1 ∧ c.1 ≤ 4) ∧ (0 ≤ c.2 ∧ c.2 ≤ 4)}
      {p : Int | 0 ≤ p ∧ p ≤ 24} := by
  refine ⟨?_, ?_, ?_⟩
  · rintro ⟨x, y⟩ ⟨hx, hy⟩
    exact getIndex_range x y hx hy
  · rintro ⟨x, y⟩ ⟨hx, hy⟩ ⟨u, v⟩ ⟨hu, hv⟩ h
    obtain ⟨h1, h2⟩ := getIndex_inj x y u v hx hy hu hv h
    exact Prod.ext h1 h2
  · intro p hp
    obtain ⟨x, y, hx, hy, h⟩ := getIndex_surj p hp
    exact ⟨(x, y), ⟨hx, hy⟩, h⟩

/-- C2: with `index(row, col) = getIndex(x = col, y = row)`, for every `row`,
`col` in `0..4` the result is the serpentine formula of section 4.1 with side 5:
`24 - (row*5 + col)` on an even row and `24 - (row*5 + (4 - col))` on an odd row;
in particular `index(0,0) = 24`, `index(0,4) = 20`, `index(1,0) = 15` and
`index(4,4) = 0`. -/
theorem getIndex_serpentine (row col : Int) (hrow : 0 ≤ row ∧ row ≤ 4)
    (_hcol : 0 ≤ col ∧ col ≤ 4) :
    getIndex col row = specIndex 5 row col ∧
    (row % 2 = 0 → getIndex col row = 24 - (row * 5 + col)) ∧
    (row % 2 = 1 → getIndex col row = 24 - (row * 5 + (4 - col))) ∧
    getIndex 0 0 = 24 ∧ getIndex 4 0 = 20 ∧ getIndex 0 1 = 15 ∧ getIndex 4 4 = 0 := by
  refine ⟨?_, fun h => getIndex_even col row hrow.1 h,
    fun h => getIndex_odd col row hrow.1 h, by decide, by decide, by decide, by decide⟩
  unfold specIndex
  rcases Int.emod_two_eq_zero_or_one row with h | h
  · rw [getIndex_even col row hrow.1 h, if_pos h]; omega
  · rw [getIndex_odd col row hrow.1 h, if_neg (by omega)]; omega

/-- Witness of C2 at `row = 3`, `col = 1`: an odd row, position 6. -/
theorem getIndex_serpentine_witness :
    getIndex 1 3 = specIndex 5 3 1 ∧ getIndex 1 3 = 24 - (3 * 5 + (4 - 1)) :=
  ⟨(getIndex_serpentine 3 1 (by decide) (by decide)).1,
   (getIndex_serpentine 3 1 (by decide) (by decide)).2.2.1 (by decide)⟩

/-- C3, as stated, fails: the six listed values do not all hold, because
`index(1,4) = getIndex(x = 4, y = 1)` is 19, not 11. -/
theorem getIndex_listed_values_counterexample :
    ¬ (getIndex 0 0 = 24 ∧ getIndex 4 0 = 20 ∧ getIndex 0 4 = 4 ∧ getIndex 4 4 = 0 ∧
       getIndex 0 1 = 15 ∧ getIndex 4 1 = 11) := by
  decide

/-- C3, amended: with `index(row, col) = getIndex(x = col, y = row)`,
`index(0,0) = 24`, `index(0,4) = 20`, `index(4,0) = 4`, `index(4,4) = 0`,
`index(1,0) = 15` and `index(1,4) = 19`; the formula of section 4.1 gives the
same 19. -/
theorem getIndex_listed_values :
    getIndex 0 0 = 24 ∧ getIndex 4 0 = 20 ∧ getIndex 0 4 = 4 ∧ getIndex 4 4 = 0 ∧
    getIndex 0 1 = 15 ∧ getIndex 4 1 = 19 ∧ specIndex 5 1 4 = 19 := by
  decide

/-! ## Facts about the LED buffer -/

theorem scaled_byte (c : Nat) (h : c < 256) : scaled c = some (c / 20) := by
  interval_cases c <;> rfl

theorem npSetLED_eq (s : State) (index r g b : Nat) (h : index < LED_COUNT)
    (hr : r < 256) (hg : g < 256) (hb : b < 256) :
    npSetLED s index r g b =
      some { s with leds :=
        Function.update s.leds ⟨index, h⟩ { G := g / 20, R := r / 20, B := b / 20 } } := by
  unfold npSetLED
  rw [dif_pos h, Nat.mod_eq_of_lt hr, Nat.mod_eq_of_lt hg, Nat.mod_eq_of_lt hb,
    scaled_byte r hr, scaled_byte g hg, scaled_byte b hb]
  simp

theorem clear_fold (l : List Nat) (hl : ∀ i ∈ l, i < LED_COUNT) (s : State) :
    l.foldlM (fun t i => npSetLED t i 0 0 0) s =
      some { s with leds := fun j => if j.val ∈ l then dark else s.leds j } := by
  induction l generalizing s with
  | nil => simp
  | cons a l ih =>
    have ha : a < LED_COUNT := hl a (List.mem_cons_self a l)
    rw [List.foldlM_cons, npSetLED_eq s a 0 0 0 ha (by decide) (by decide) (by decide)]
    simp only [Option.some_bind, Option.bind_eq_bind]
    rw [ih (fun i hi => hl i (List.mem_cons_of_mem a hi))]
    congr 2
    funext j
    by_cases h1 : j.val ∈ l
    · simp [h1]
    · by_cases h2 : j.val = a
      · have : j = ⟨a, ha⟩ := Fin.ext h2
        subst this
        simp [h1, dark]
      · have : j ≠ ⟨a, ha⟩ := fun e => h2 (congrArg Fin.val e)
        simp [h1, h2, Function.update_noteq this]

theorem npClear_eq (s : State) : npClear s = some { s with leds := fun _ => dark } := by
  unfold npClear
  rw [clear_fold (List.range LED_COUNT) (fun i hi => List.mem_range.mp hi) s]
  congr 2
  funext j
  simp [List.mem_range, j.isLt]

theorem write_fold (l : List (Fin LED_COUNT)) (s : State) :
    l.foldl
      (fun (t : State) i =>
        { t with trace := t.trace ++
            [Event.pio_sm_put_blocking t.np_pio t.sm (t.leds i).G,
             Event.pio_sm_put_blocking t.np_pio t.sm (t.leds i).R,
             Event.pio_sm_put_blocking t.np_pio t.sm (t.leds i).B] }) s =
      { s with trace := (s.trace ++
          List.map (Event.pio_sm_put_blocking s.np_pio s.sm)
            (l.flatMap (fun i => [(s.leds i).G, (s.leds i).R, (s.leds i).B]))) } := by
  induction l generalizing s with
  | nil => simp
  | cons a l ih =>
    rw [List.foldl_cons, ih]
    simp [List.flatMap_cons]

theorem npWrite_eq (s : State) :
    npWrite s =
      { s with trace := s.trace ++
          (frameBytes s.leds).map (Event.pio_sm_put_blocking s.np_pio s.sm) ++
          [Event.sleep_us 100] } := by
  unfold npWrite frameBytes
  rw [write_fold]

theorem frameBytes_length (leds : Fin LED_COUNT → npLED_t) :
    (frameBytes leds).length = 75 := by
  rfl

theorem frameBytes_get (leds : Fin LED_COUNT → npLED_t) (i : Fin LED_COUNT) :
    (frameBytes leds)[3 * i.val]? = some (leds i).G ∧
    (frameBytes leds)[3 * i.val + 1]? = some (leds i).R ∧
    (frameBytes leds)[3 * i.val + 2]? = some (leds i).B := by
  fin_cases i <;> exact ⟨rfl, rfl, rfl⟩

theorem floor_scale (c : Nat) : ⌊(c : ℚ) * (5 / 100)⌋ = ((c / 20 : Nat) : Int) := by
  rw [Int.floor_eq_iff]
  have h1 : 20 * (c / 20) + c % 20 = c := Nat.div_add_mod c 20
  have h2 : c % 20 < 20 := Nat.mod_lt c (by norm_num)
  have h3 : (c : ℚ) = 20 * ((c / 20 : Nat) : ℚ) + ((c % 20 : Nat) : ℚ) := by
    exact_mod_cast h1.symm
  have h4 : ((c % 20 : Nat) : ℚ) < 20 := by exact_mod_cast h2
  have h5 : (0 : ℚ) ≤ ((c % 20 : Nat) : ℚ) := Nat.cast_nonneg _
  have h6 : (((c / 20 : Nat) : Int) : ℚ) = ((c / 20 : Nat) : ℚ) := Int.cast_natCast _
  rw [h6]
  constructor <;> linarith

theorem init_fold (l : List (Fin LED_COUNT)) (s : State) :
    l.foldl
      (fun (t : State) i =>
        let t1 : State := { t with leds := Function.update t.leds i { t.leds i with R := 0 } }
        let t2 : State := { t1 with leds := Function.update t1.leds i { t1.leds i with G := 0 } }
        { t2 with leds := Function.update t2.leds i { t2.leds i with B := 0 } }) s =
      { s with leds := fun j => if j ∈ l then dark else s.leds j } := by
  induction l generalizing s with
  | nil => simp
  | cons a l ih =>
    rw [List.foldl_cons, ih]
    congr 1
    funext j
    by_cases h1 : j ∈ l
    · simp [h1]
    · by_cases h2 : j = a
      · subst h2
        simp [h1, dark]
      · simp [h1, h2, Function.update_noteq h2]

theorem npInit_eq (s : State) (pin offset : Nat) (claim0 : Int) (claim1 : Option Int) :
    npInit s pin offset claim0 claim1 =
      some { s with
        np_pio := pio_hw_t.pio0, sm := toUint claim0, leds := fun _ => dark,
        trace := (s.trace ++
          [Event.ws2818b_program_init pio_hw_t.pio0 (toUint claim0) offset pin 800000]) } := by
  unfold npInit
  simp only [Nat.not_lt_zero, if_false, init_fold]
  congr 2
  funext j
  simp [List.mem_finRange]

theorem toUint_of_range (z : Int) (h : 0 ≤ z ∧ z ≤ 24) :
    toUint z < LED_COUNT ∧ ((toUint z : Nat) : Int) = z := by
  unfold toUint LED_COUNT
  rw [Int.emod_eq_of_lt h.1 (by omega)]
  omega

theorem matrixAt_eq (linha coluna : Nat) (hl : linha < 5) (hc : coluna < 5) :
    matrixAt coluna linha 0 = some (if linha = 2 ∧ coluna ≠ 3 then 255 else 0) ∧
    matrixAt coluna linha 1 = some 0 ∧ matrixAt coluna linha 2 = some 0 := by
  interval_cases linha <;> interval_cases coluna <;> exact ⟨rfl, rfl, rfl⟩

theorem paintStep_eq (s : State) (linha coluna : Nat) (hl : linha < 5) (hc : coluna < 5) :
    paintStep s linha coluna =
      npSetLED s (toUint (getIndex linha coluna))
        (if linha = 2 ∧ coluna ≠ 3 then 255 else 0) 0 0 := by
  obtain ⟨h0, h1, h2⟩ := matrixAt_eq linha coluna hl hc
  unfold paintStep
  simp only [h0, h1, h2]

theorem paint_some (s : State) :
    ∃ t, paint s = some t ∧ t.leds = lineLeds ∧ t.value = s.value ∧
      t.adjusted_value = s.adjusted_value ∧ t.alarm = s.alarm ∧ t.np_pio = s.np_pio ∧
      t.sm = s.sm ∧ t.trace = s.trace := by
  refine ⟨_, rfl, ?_, rfl, rfl, rfl, rfl, rfl, rfl⟩
  funext j
  fin_cases j <;> rfl

theorem paint_eq (s : State) : paint s = some { s with leds := lineLeds } := by
  obtain ⟨t, h, h1, h2, h3, h4, h5, h6, h7⟩ := paint_some s
  rw [h]
  cases t
  simp only at h1 h2 h3 h4 h5 h6 h7
  subst h1 h2 h3 h4 h5 h6 h7
  rfl

theorem frameBytes_dark : frameBytes (fun _ => dark) = List.replicate 75 0 := by
  rfl

theorem turn_on_led_eq (s : State) :
    turn_on_led s =
      some { s with
        leds := fun _ => dark, alarm := false,
        trace := (s.trace ++
          List.map (Event.pio_sm_put_blocking s.np_pio s.sm) (frameBytes lineLeds) ++
          [Event.sleep_us 100, Event.sleep_ms 5] ++
          List.map (Event.pio_sm_put_blocking s.np_pio s.sm) (List.replicate 75 0) ++
          [Event.sleep_us 100, Event.sleep_ms 5]) } := by
  unfold turn_on_led
  rw [paint_eq]
  simp only [npWrite_eq, npClear_eq, frameBytes_dark]
  simp

theorem lineLeds_getIndex (i : Fin LED_COUNT) (x y : Int) (hx : 0 ≤ x ∧ x ≤ 4)
    (hy : 0 ≤ y ∧ y ≤ 4) (h : getIndex x y = (i.val : Int)) :
    lineLeds i = if x = 2 ∧ y ≠ 3 then { G := 0, R := 12, B := 0 } else dark := by
  obtain ⟨hx0, hx4⟩ := hx
  obtain ⟨hy0, hy4⟩ := hy
  have hv : i.val = (getIndex x y).toNat := by rw [h]; rfl
  unfold lineLeds
  rw [hv]
  interval_cases x <;> interval_cases y <;> decide

/-! ## The claims about the buffer, the sampler and the renderer -/

/-- C4: for every state, `npWrite` hands the state machine exactly `3 * 25 = 75`
values, green, red and blue of LED 0, then of LED 1, and so on up to LED 24,
each the stored channel, then waits 100 microseconds; the buffer is unchanged. -/
theorem npWrite_frame (s : State) :
    (npWrite s).trace =
      s.trace ++ List.map (Event.pio_sm_put_blocking s.np_pio s.sm) (frameBytes s.leds) ++
        [Event.sleep_us 100] ∧
    (frameBytes s.leds).length = 3 * 25 ∧
    (∀ i : Fin LED_COUNT,
      (frameBytes s.leds)[3 * i.val]? = some (s.leds i).G ∧
      (frameBytes s.leds)[3 * i.val + 1]? = some (s.leds i).R ∧
      (frameBytes s.leds)[3 * i.val + 2]? = some (s.leds i).B) ∧
    (npWrite s).leds = s.leds := by
  rw [npWrite_eq]
  exact ⟨rfl, frameBytes_length s.leds, frameBytes_get s.leds, rfl⟩

/-- C5: for every position `p < 25` and every `r`, `g`, `b` in `0..255`,
`npSetLED(p, r, g, b)` returns and the triple stored at `p` is the input divided
by 20 rounded down, which is `floor(r * 0.05)`, `floor(g * 0.05)`,
`floor(b * 0.05)`; every stored channel is at most 12; for `(200, 100, 50)` the
stored triple is `(R, G, B) = (10, 5, 2)`. -/
theorem npSetLED_scales (s : State) (p r g b : Nat) (hp : p < LED_COUNT)
    (hr : r < 256) (hg : g < 256) (hb : b < 256) :
    (∃ t, npSetLED s p r g b = some t ∧
      t.leds ⟨p, hp⟩ = { G := g / 20, R := r / 20, B := b / 20 } ∧
      ((t.leds ⟨p, hp⟩).R : Int) = ⌊(r : ℚ) * (5 / 100)⌋ ∧
      ((t.leds ⟨p, hp⟩).G : Int) = ⌊(g : ℚ) * (5 / 100)⌋ ∧
      ((t.leds ⟨p, hp⟩).B : Int) = ⌊(b : ℚ) * (5 / 100)⌋ ∧
      (t.leds ⟨p, hp⟩).R ≤ 12 ∧ (t.leds ⟨p, hp⟩).G ≤ 12 ∧ (t.leds ⟨p, hp⟩).B ≤ 12) ∧
    (∃ t, npSetLED s p 200 100 50 = some t ∧
      t.leds ⟨p, hp⟩ = { G := 5, R := 10, B := 2 }) := by
  constructor
  · refine ⟨_, npSetLED_eq s p r g b hp hr hg hb, ?_⟩
    simp only [Function.update_same]
    refine ⟨trivial, (floor_scale r).symm, (floor_scale g).symm, (floor_scale b).symm,
      ?_, ?_, ?_⟩ <;> omega
  · refine ⟨_, npSetLED_eq s p 200 100 50 hp (by decide) (by decide) (by decide), ?_⟩
    simp only [Function.update_same]

/-- Witness of C5: position 7 of the dark buffer, input `(255, 19, 20)`. -/
theorem npSetLED_scales_witness :
    ∃ t, npSetLED State.zero 7 255 19 20 = some t ∧
      t.leds ⟨7, by decide⟩ = { G := 0, R := 12, B := 1 } :=
  match (npSetLED_scales State.zero 7 255 19 20 (by decide) (by decide) (by decide)
    (by decide)).1 with
  | ⟨t, h1, h2, _⟩ => ⟨t, h1, h2⟩

/-- C6: for every reading `raw` of the ADC (a `uint16_t`) and every state before,
the previous alarm flag included, after `get_microphone_callback` the alarm flag
is true exactly when `raw > 2100`: 2101 gives true and 2100 gives false. -/
theorem get_microphone_callback_alarm (s : State) (raw : Nat) (hraw : raw < 65536) :
    ((get_microphone_callback s raw).1.alarm = true ↔ 2100 < raw) ∧
    (get_microphone_callback s 2101).1.alarm = true ∧
    (get_microphone_callback s 2100).1.alarm = false := by
  refine ⟨?_, rfl, rfl⟩
  unfold get_microphone_callback
  simp only [Nat.mod_eq_of_lt hraw]
  by_cases h : 2100 < raw
  · simp [h]
  · simp [h]

/-- Witness of C6: a reading of 3000 on a state whose flag was false, and a
reading of 100 on a state whose flag was true. -/
theorem get_microphone_callback_alarm_witness :
    (get_microphone_callback State.zero 3000).1.alarm = true ∧
    (get_microphone_callback { State.zero with alarm := true } 100).1.alarm = false :=
  ⟨(get_microphone_callback_alarm State.zero 3000 (by decide)).1.mpr (by decide),
   by
    have h := (get_microphone_callback_alarm { State.zero with alarm := true } 100
      (by decide)).1
    cases e : (get_microphone_callback { State.zero with alarm := true } 100).1.alarm with
    | false => rfl
    | true => exact absurd (h.mp e) (by decide)⟩

/-- C7: for every state before the call, `turn_on_led` returns, transmits exactly
two frames and ends all dark. The first frame is the vertical line: the LED at
`getIndex x y` is red only, `(R, G, B) = (12, 0, 0)`, when `x = 2` and `y` is 0,
1, 2 or 4 (positions 22, 17, 12 and 2), and `(0, 0, 0)` for every other `x`, `y`,
the whole of row 3 (positions 5 to 9) included; the second frame is all zeros;
afterwards every position of the buffer is `(0, 0, 0)` and the alarm is false. -/
theorem turn_on_led_flash (s : State) :
    turn_on_led s =
      some { s with
        leds := fun _ => dark, alarm := false,
        trace := (s.trace ++
          List.map (Event.pio_sm_put_blocking s.np_pio s.sm) (frameBytes lineLeds) ++
          [Event.sleep_us 100, Event.sleep_ms 5] ++
          List.map (Event.pio_sm_put_blocking s.np_pio s.sm) (List.replicate 75 0) ++
          [Event.sleep_us 100, Event.sleep_ms 5]) } ∧
    (frameBytes lineLeds).length = 75 ∧
    (∀ (i : Fin LED_COUNT) (x y : Int), 0 ≤ x ∧ x ≤ 4 → 0 ≤ y ∧ y ≤ 4 →
      getIndex x y = (i.val : Int) →
      lineLeds i = if x = 2 ∧ y ≠ 3 then { G := 0, R := 12, B := 0 } else dark) ∧
    (getIndex 2 0 = 22 ∧ getIndex 2 1 = 17 ∧ getIndex 2 2 = 12 ∧ getIndex 2 4 = 2) ∧
    (getIndex 0 3 = 5 ∧ getIndex 1 3 = 6 ∧ getIndex 2 3 = 7 ∧ getIndex 3 3 = 8 ∧
      getIndex 4 3 = 9) ∧
    frameBytes lineLeds =
      [0, 0, 0, 0, 0, 0, 0, 12, 0, 0, 0, 0, 0, 0, 0,
       0, 0, 0, 0, 0, 0, 0, 0, 0, 0, 0, 0, 0, 0, 0,
       0, 0, 0, 0, 0, 0, 0, 12, 0, 0, 0, 0, 0, 0, 0,
       0, 0, 0, 0, 0, 0, 0, 12, 0, 0, 0, 0, 0, 0, 0,
       0, 0, 0, 0, 0, 0, 0, 12, 0, 0, 0, 0, 0, 0, 0] :=
  ⟨turn_on_led_eq s, frameBytes_length lineLeds, lineLeds_getIndex, by decide, by decide,
    by decide⟩

/-- Witness of C7: on the line buffer, position 17 is `getIndex 2 1`, column 2 of
row 1, and holds red at level 12. -/
theorem turn_on_led_flash_witness :
    lineLeds ⟨17, by decide⟩ = { G := 0, R := 12, B := 0 } :=
  (turn_on_led_flash State.zero).2.2.1 ⟨17, by decide⟩ 2 1 (by decide) (by decide)
    (by decide)

/-- C8: for every state, `npClear` returns and every one of the 25 positions then
holds `(R, G, B) = (0, 0, 0)`; `npClear` called twice in a row gives the same
state as `npClear` called once. -/
theorem npClear_dark (s : State) :
    (∃ t, npClear s = some t ∧ ∀ i : Fin LED_COUNT, t.leds i = { G := 0, R := 0, B := 0 }) ∧
    (npClear s).bind npClear = npClear s := by
  constructor
  · exact ⟨_, npClear_eq s, fun _ => rfl⟩
  · rw [npClear_eq s, Option.some_bind, npClear_eq]

/-- C9, the code at the failing input: when `pio_claim_unused_sm(pio0, false)`
returns -1, `npInit` does not panic, whatever the claim on `pio1` would give: it
keeps `pio0`, stores 4294967295 in `sm` and starts the program on that state
machine. -/
theorem npInit_no_free_sm (s : State) (pin offset : Nat) (claim1 : Option Int) :
    ∃ t, npInit s pin offset (-1) claim1 = some t ∧ t.np_pio = pio_hw_t.pio0 ∧
      t.sm = 4294967295 ∧
      t.trace = s.trace ++
        [Event.ws2818b_program_init pio_hw_t.pio0 4294967295 offset pin 800000] :=
  ⟨_, npInit_eq s pin offset (-1) claim1, rfl, rfl, rfl⟩

/-- C10, as stated, fails at `linha = 2`, `coluna = 0` on the dark buffer:
`matrix[0][2]` is `(255, 0, 0)` and its scaled value `(12, 0, 0)` is stored at
position 22, while position `index(2, 0) = 14` of section 4.1 stays dark. -/
theorem paintStep_position_counterexample :
    specIndex 5 2 0 = 14 ∧ matrixAt 0 2 0 = some 255 ∧
    ∃ t, paintStep State.zero 2 0 = some t ∧
      t.leds ⟨14, by decide⟩ = { G := 0, R := 0, B := 0 } ∧
      t.leds ⟨22, by decide⟩ = { G := 0, R := 12, B := 0 } :=
  ⟨by decide, rfl, _, rfl, rfl, rfl⟩

/-- C10, amended: in the painting loop of `turn_on_led`, for every `linha` and
`coluna` in `0..4`, the step returns and the position set to the scaled
`matrix[coluna][linha]` is `getIndex(x = linha, y = coluna)`, which is the
`index(coluna, linha)` of section 4.1: `24 - (coluna*5 + linha)` when `coluna`
is even and `24 - (coluna*5 + (4 - linha))` when `coluna` is odd; no other
position changes. -/
theorem paintStep_position (s : State) (linha coluna : Nat) (hl : linha < 5)
    (hc : coluna < 5) :
    ∃ (p : Fin LED_COUNT) (r g b : Nat),
      (p.val : Int) = getIndex linha coluna ∧
      (p.val : Int) = specIndex 5 coluna linha ∧
      (coluna % 2 = 0 → (p.val : Int) = 24 - ((coluna : Int) * 5 + linha)) ∧
      (coluna % 2 = 1 → (p.val : Int) = 24 - ((coluna : Int) * 5 + (4 - linha))) ∧
      matrixAt coluna linha 0 = some r ∧ matrixAt coluna linha 1 = some g ∧
      matrixAt coluna linha 2 = some b ∧
      paintStep s linha coluna =
        some { s with leds :=
          (Function.update s.leds p { G := g / 20, R := r / 20, B := b / 20 }) } := by
  have hx : (0 : Int) ≤ linha ∧ (linha : Int) ≤ 4 := by omega
  have hy : (0 : Int) ≤ coluna ∧ (coluna : Int) ≤ 4 := by omega
  obtain ⟨hlt, hcast⟩ := toUint_of_range _ (getIndex_range linha coluna hx hy)
  obtain ⟨m0, m1, m2⟩ := matrixAt_eq linha coluna hl hc
  refine ⟨⟨toUint (getIndex linha coluna), hlt⟩, _, _, _, hcast, ?_, ?_, ?_, m0, m1, m2, ?_⟩
  · rw [hcast]
    unfold specIndex
    rcases Int.emod_two_eq_zero_or_one (coluna : Int) with h | h
    · rw [getIndex_even _ _ hy.1 h, if_pos h]; omega
    · rw [getIndex_odd _ _ hy.1 h, if_neg (by omega)]; omega
  · intro h
    rw [hcast, getIndex_even _ _ hy.1 (by omega)]
  · intro h
    rw [hcast, getIndex_odd _ _ hy.1 (by omega)]
  · rw [paintStep_eq s linha coluna hl hc]
    exact npSetLED_eq s _ _ 0 0 hlt (by split <;> decide) (by decide) (by decide)

/-- Witness of C10 amended: `linha = 2`, `coluna = 1` paints position 17. -/
theorem paintStep_position_witness :
    ∃ (p : Fin LED_COUNT) (r g b : Nat),
      (p.val : Int) = getIndex 2 1 ∧
      (p.val : Int) = specIndex 5 1 2 ∧
      (1 % 2 = 0 → (p.val : Int) = 24 - (((1 : Nat) : Int) * 5 + (2 : Nat))) ∧
      (1 % 2 = 1 → (p.val : Int) = 24 - (((1 : Nat) : Int) * 5 + (4 - (2 : Nat)))) ∧
      matrixAt 1 2 0 = some r ∧ matrixAt 1 2 1 = some g ∧
      matrixAt 1 2 2 = some b ∧
      paintStep State.zero 2 1 =
        some { State.zero with leds :=
          (Function.update State.zero.leds p { G := g / 20, R := r / 20, B := b / 20 }) } :=
  paintStep_position State.zero 2 1 (by decide) (by decide)

end NeopixelPio
